import Mathlib

/-!
Verification of the Document Lifecycle and Query Contract layer of the
Academic-Research-Knowledgebase repository.

The core under study is the ChromaDocStore wrapper in
app/backend/vector_store/chroma_store.py, together with the small sys.path
helper in app/frontend/utils/path_setup.py.  The wrapper orchestrates an
external Vector Index Engine (ChromaDB) behind a document-oriented API:
add_documents, similarity_search, get_document, update_document,
delete_documents.

Embedding conventions:
- the engine's collection is modelled as a list of entries (id, text, metadata);
- metadata mappings are association lists from string keys to string values;
- each wrapper operation returns an Outcome: the Except-result seen by the
  caller, the engine state afterwards, and how many engine calls were issued
  (the Python code issues exactly one engine call per operation, inside a
  try block that logs and re-raises any exception);
- a connectivity or storage failure of the engine is injected through an
  explicit fault parameter standing for the engine call raising;
- clock reads (datetime.utcnow) are oracles: functions from the index of the
  read within the call to the rendered timestamp string;
- the similarity query itself is the engine's black box, so similarity_search
  is parametrised by the engine's raw query response and we verify the
  wrapper's result shaping;
- the error_tracker / performance_monitor decorators and the loggers are not
  under src; per the spec (sections 6, 7 and 9) they are observability side
  channels that do not alter return values or control flow, so they are
  modelled as transparent.
-/

namespace ChromaStore

/-- Metadata mapping attached to a document: association list from string keys
to (rendered) scalar values. -/
abbrev Meta := List (String × String)

/-- One record stored in the ChromaDB collection: id, document text, metadata.
This is also the dictionary shape returned by get_document. -/
structure Entry where
  id : String
  document : String
  metadata : Meta
deriving DecidableEq, Repr

/-- Contents of the collection held by the engine. -/
abbrev Store := List Entry

/-- Exceptions that can surface from an operation.  The first two are raised
by chromadb's own input validation inside collection.add; engineFault stands
for a connectivity or storage failure of the engine; validationError is the
wrapper-level pre-engine error named by the spec (the code never constructs
it); indexError models a Python IndexError in the wrapper's own loops. -/
inductive Err where
  | engineLengthMismatch : Err
  | engineDuplicateIds : Err
  | engineFault : String → Err
  | validationError : Err
  | indexError : Err
deriving DecidableEq, Repr

/-- Result of one wrapper operation: what the caller sees, the engine state
afterwards, and the number of engine calls the operation issued. -/
structure Outcome (α : Type) where
  result : Except Err α
  store : Store
  engineCalls : Nat

/-- Engine primitive collection.add (spec section 6 insert): chromadb rejects
unequal parallel lengths and duplicate ids within one batch before writing,
otherwise appends the batch of records. -/
def engAdd (st : Store) (documents : List String) (metadatas : List Meta)
    (ids : List String) : Except Err Store :=
  if ids.length ≠ documents.length ∨ metadatas.length ≠ documents.length then
    .error .engineLengthMismatch
  else if ¬ ids.Nodup then
    .error .engineDuplicateIds
  else
    .ok (st ++ (ids.zip (documents.zip metadatas)).map
      (fun p => ⟨p.1, p.2.1, p.2.2⟩))

/-- Engine primitive collection.get with a single id (spec section 6 get):
the parallel result lists, here as the sublist of entries whose id matches. -/
def engGet (st : Store) (id : String) : List Entry :=
  st.filter (fun e => e.id = id)

/-- Engine primitive collection.delete (spec section 6 delete): removes every
entry whose id occurs in the given id list. -/
def engDelete (st : Store) (ids : List String) : Store :=
  st.filter (fun e => ¬ ids.contains e.id)

/-- Engine primitive collection.update with a single id (spec section 6
update): replaces text and metadata of every entry with the given id; chromadb
leaves the collection unchanged when the id is absent. -/
def engUpdate (st : Store) (id : String) (document : String)
    (metadata : Meta) : Store :=
  st.map (fun e => if e.id = id then ⟨id, document, metadata⟩ else e)

/-- Decimal digits of a natural number, least significant first, with explicit
fuel so the definition is structural. -/
def decDigitsAux : Nat → Nat → List Nat
  | 0, _ => []
  | _ + 1, 0 => []
  | fuel + 1, n + 1 => (n + 1) % 10 :: decDigitsAux fuel ((n + 1) / 10)

/-- Decimal digits of a natural number, least significant first. -/
def decDigits (n : Nat) : List Nat := decDigitsAux n n

/-- Evaluation of a little-endian decimal digit list back to a number. -/
def ofDec : List Nat → Nat
  | [] => 0
  | d :: ds => d + 10 * ofDec ds

/-- Little-endian decimal digit list with zero rendered as a single 0 digit,
matching how a Python f-string renders an int. -/
def padDigits (n : Nat) : List Nat :=
  if n = 0 then [0] else decDigits n

/-- Rendering of a natural number the way a Python f-string renders an int:
decimal, most significant digit first, no leading zeros, zero as "0". -/
def natStr (n : Nat) : String :=
  ⟨(padDigits n).reverse.map Nat.digitChar⟩

/-- Identity string generated for position i of an add_documents call with
the timestamp rendering returned by that call's clock read. -/
def mkId (i : Nat) (ts : String) : String :=
  "doc_" ++ natStr i ++ "_" ++ ts

/-- Generated ids for n documents (chroma_store.py line 96): position index
combined with a per-element utcnow timestamp. -/
def genIds (n : Nat) (tss : Nat → String) : List String :=
  (List.range n).map (fun i => mkId i (tss i))

/-- Default metadatas for n documents (chroma_store.py line 99): one mapping
per document holding only a creation timestamp. -/
def defaultMetas (n : Nat) (isoTs : Nat → String) : List Meta :=
  (List.range n).map (fun i => [("timestamp", isoTs i)])

/-- ChromaDocStore.add_documents (chroma_store.py lines 74 to 114): fills in
generated ids and default metadatas when omitted, then issues a single
collection.add; any exception from the engine call is logged and re-raised. -/
def add_documents (st : Store) (fault : Option Err) (documents : List String)
    (metadatas : Option (List Meta)) (ids : Option (List String))
    (tss isoTs : Nat → String) : Outcome (List String) :=
  let ids := match ids with
    | none => genIds documents.length tss
    | some l => l
  let metadatas := match metadatas with
    | none => defaultMetas documents.length isoTs
    | some l => l
  match fault with
  | some e => ⟨.error e, st, 1⟩
  | none =>
    match engAdd st documents metadatas ids with
    | .error e => ⟨.error e, st, 1⟩
    | .ok st2 => ⟨.ok ids, st2, 1⟩

/-- Shape of the engine's response to collection.query for the single-query
batches the wrapper issues (spec section 6): parallel sequences of ids, texts
and metadatas, and a distance sequence that the engine may not supply. -/
structure QueryResult where
  ids : List String
  documents : List String
  metadatas : List Meta
  distances : Option (List ℚ)

/-- One formatted similarity_search result entry (chroma_store.py lines 153
to 158): the dictionary always carries the four keys id, document, metadata
and distance. -/
structure SearchHit where
  id : String
  document : String
  metadata : Meta
  distance : Option ℚ
deriving DecidableEq

/-- Sequencing of a list of fallible computations: the whole list if every
element is present, failure as soon as one is missing. -/
def seqOpt {α : Type} : List (Option α) → Option (List α)
  | [] => some []
  | o :: os =>
    match o with
    | none => none
    | some x =>
      match seqOpt os with
      | none => none
      | some xs => some (x :: xs)

/-- Distance expression of the formatting loop (chroma_store.py line 157):
None when the engine response carries no distances key, otherwise the i-th
engine distance; the outer none models an IndexError on a short distance
list. -/
def distOf (qr : QueryResult) (i : Nat) : Option (Option ℚ) :=
  match qr.distances with
  | none => some (none : Option ℚ)
  | some ds => (ds.get? i).map some

/-- Body of the result-formatting loop of similarity_search at one index i
(chroma_store.py lines 153 to 158): reads the parallel result lists; none
models a Python IndexError on a parallel list shorter than the id list. -/
def fmtIdx (qr : QueryResult) (i : Nat) : Option SearchHit := do
  let id ← qr.ids.get? i
  let doc ← qr.documents.get? i
  let md ← qr.metadatas.get? i
  let dist ← distOf qr i
  some (⟨id, doc, md, dist⟩ : SearchHit)

/-- Result formatting loop of similarity_search (chroma_store.py lines 151 to
158): one formatted entry for each index into the returned id list. -/
def formatResults (qr : QueryResult) : Option (List SearchHit) :=
  seqOpt ((List.range qr.ids.length).map (fmtIdx qr))

/-- ChromaDocStore.similarity_search (chroma_store.py lines 118 to 165):
issues a single collection.query, then formats the engine response; any
exception is logged and re-raised.  The query semantics belong to the engine,
so the engine's raw response is a parameter. -/
def similarity_search (st : Store) (fault : Option Err) (_query : String)
    (_n_results : Nat) (qr : QueryResult) : Outcome (List SearchHit) :=
  match fault with
  | some e => ⟨.error e, st, 1⟩
  | none =>
    match formatResults qr with
    | none => ⟨.error .indexError, st, 1⟩
    | some hits => ⟨.ok hits, st, 1⟩

/-- ChromaDocStore.delete_documents (chroma_store.py lines 167 to 186): a
single collection.delete; any exception is logged and re-raised. -/
def delete_documents (st : Store) (fault : Option Err) (ids : List String) :
    Outcome Unit :=
  match fault with
  | some e => ⟨.error e, st, 1⟩
  | none => ⟨.ok (), engDelete st ids, 1⟩

/-- ChromaDocStore.get_document (chroma_store.py lines 188 to 216): a single
collection.get for the id; when the returned id list is non-empty the record
at index 0 is returned, otherwise None; any exception is logged and
re-raised. -/
def get_document (st : Store) (fault : Option Err) (doc_id : String) :
    Outcome (Option Entry) :=
  match fault with
  | some e => ⟨.error e, st, 1⟩
  | none =>
    match engGet st doc_id with
    | [] => ⟨.ok none, st, 1⟩
    | e :: _ => ⟨.ok (some e), st, 1⟩

/-- ChromaDocStore.update_document (chroma_store.py lines 218 to 251): when
metadata is omitted it is replaced by a mapping holding only an update
timestamp, then a single collection.update is issued; any exception is logged
and re-raised. -/
def update_document (st : Store) (fault : Option Err) (doc_id : String)
    (document : String) (metadata : Option Meta) (ts : String) :
    Outcome Unit :=
  let metadata := match metadata with
    | none => [("updated_at", ts)]
    | some m => m
  match fault with
  | some e => ⟨.error e, st, 1⟩
  | none => ⟨.ok (), engUpdate st doc_id document metadata, 1⟩

end ChromaStore

namespace PathSetup

/-- add_project_root_to_path (app/frontend/utils/path_setup.py lines 4 to 8):
inserts the computed project root at the front of sys.path when it is not
already present. -/
def add_project_root_to_path (root : String) (path : List String) :
    List String :=
  if root ∈ path then path else root :: path

end PathSetup

namespace ChromaStore

/-! Helper lemmas about the decimal rendering used by generated ids. -/

lemma ofDec_decDigitsAux : ∀ (fuel n : Nat), n ≤ fuel → ofDec (decDigitsAux fuel n) = n := by
  intro fuel
  induction fuel with
  | zero =>
    intro n h
    interval_cases n
    rfl
  | succ fuel ih =>
    intro n h
    match n with
    | 0 => rfl
    | n + 1 =>
      have hdiv : (n + 1) / 10 ≤ fuel := by omega
      simp only [decDigitsAux, ofDec, ih ((n + 1) / 10) hdiv]
      omega

lemma ofDec_padDigits (n : Nat) : ofDec (padDigits n) = n := by
  unfold padDigits
  by_cases h : n = 0
  · simp [h, ofDec]
  · simp only [h, if_false, decDigits]
    exact ofDec_decDigitsAux n n le_rfl

lemma padDigits_inj {m n : Nat} (h : padDigits m = padDigits n) : m = n := by
  have h2 := congrArg ofDec h
  rwa [ofDec_padDigits, ofDec_padDigits] at h2

lemma decDigitsAux_lt (fuel : Nat) : ∀ n d, d ∈ decDigitsAux fuel n → d < 10 := by
  induction fuel with
  | zero =>
    intro n d hd
    simp [decDigitsAux] at hd
  | succ fuel ih =>
    intro n d hd
    match n with
    | 0 => simp [decDigitsAux] at hd
    | n + 1 =>
      simp only [decDigitsAux, List.mem_cons] at hd
      rcases hd with h | h
      · omega
      · exact ih _ _ h

lemma padDigits_lt {n d : Nat} (hd : d ∈ padDigits n) : d < 10 := by
  unfold padDigits at hd
  by_cases h : n = 0
  · simp [h] at hd
    omega
  · simp only [h, if_false, decDigits] at hd
    exact decDigitsAux_lt n n d hd

lemma digitChar_inj_lt : ∀ a < 10, ∀ b < 10, Nat.digitChar a = Nat.digitChar b → a = b := by
  decide

lemma digitChar_ne_underscore : ∀ d < 10, Nat.digitChar d ≠ '_' := by
  decide

lemma map_digitChar_inj :
    ∀ (xs ys : List Nat), (∀ d ∈ xs, d < 10) → (∀ d ∈ ys, d < 10) →
      xs.map Nat.digitChar = ys.map Nat.digitChar → xs = ys := by
  intro xs
  induction xs with
  | nil =>
    intro ys _ _ h
    cases ys with
    | nil => rfl
    | cons y ys => simp at h
  | cons x xs ih =>
    intro ys hx hy h
    cases ys with
    | nil => simp at h
    | cons y ys =>
      simp only [List.map_cons, List.cons.injEq] at h
      have hxy : x = y :=
        digitChar_inj_lt x (hx x (by simp)) y (hy y (by simp)) h.1
      have ht : xs = ys :=
        ih ys (fun d hd => hx d (by simp [hd])) (fun d hd => hy d (by simp [hd])) h.2
      rw [hxy, ht]

lemma natStr_inj {m n : Nat} (h : natStr m = natStr n) : m = n := by
  have hd := congrArg String.data h
  simp only [natStr] at hd
  have h2 := map_digitChar_inj _ _
    (fun d hdm => padDigits_lt (List.mem_reverse.1 hdm))
    (fun d hdn => padDigits_lt (List.mem_reverse.1 hdn)) hd
  exact padDigits_inj (List.reverse_injective h2)

lemma natStr_no_underscore (n : Nat) : ∀ c ∈ (natStr n).data, c ≠ '_' := by
  intro c hc
  simp only [natStr] at hc
  rcases List.mem_map.1 hc with ⟨d, hdm, hdc⟩
  have hlt : d < 10 := padDigits_lt (List.mem_reverse.1 hdm)
  rw [← hdc]
  exact digitChar_ne_underscore d hlt

lemma takeWhile_append_cons (r t : List Char) (h : ∀ c ∈ r, c ≠ '_') :
    (r ++ '_' :: t).takeWhile (fun c => c != '_') = r := by
  induction r with
  | nil => simp [List.takeWhile_cons]
  | cons c r ih =>
    have hc : c ≠ '_' := h c (by simp)
    simp only [List.cons_append, List.takeWhile_cons]
    rw [if_pos (by simp [hc]), ih (fun x hx => h x (by simp [hx]))]

lemma mkId_inj {i j : Nat} {t u : String} (h : mkId i t = mkId j u) : i = j := by
  have hd := congrArg String.data h
  simp only [mkId, String.data_append, List.append_assoc] at hd
  have hmid := List.append_cancel_left hd
  simp only [List.singleton_append] at hmid
  have htake := congrArg (List.takeWhile (fun c => c != '_')) hmid
  rw [takeWhile_append_cons _ _ (natStr_no_underscore i),
    takeWhile_append_cons _ _ (natStr_no_underscore j)] at htake
  exact natStr_inj (String.ext htake)

lemma genIds_length (n : Nat) (tss : Nat → String) : (genIds n tss).length = n := by
  simp [genIds]

lemma genIds_nodup (n : Nat) (tss : Nat → String) : (genIds n tss).Nodup := by
  unfold genIds
  refine (List.nodup_range n).map_on ?_
  intro i _ j _ hij
  exact mkId_inj hij

end ChromaStore

namespace ChromaStore

/-! Helper lemmas about the similarity_search result formatting loop. -/

lemma seqOpt_map_some {α β : Type} (l : List α) (g : α → β) :
    seqOpt (l.map (fun x => some (g x))) = some (l.map g) := by
  induction l with
  | nil => rfl
  | cons x xs ih => simp [seqOpt, ih]

/-- Total description of the distance stored at index i of a well-shaped
engine response. -/
def hitDist (qr : QueryResult) (i : Nat) : Option ℚ :=
  match qr.distances with
  | none => none
  | some ds => some (ds.getD i 0)

/-- Total description of the entry the formatting loop builds at index i of a
well-shaped engine response. -/
def hitAt (qr : QueryResult) (i : Nat) : SearchHit :=
  ⟨qr.ids.getD i "", qr.documents.getD i "", qr.metadatas.getD i [],
    hitDist qr i⟩

lemma get?_eq_getD {α : Type} (l : List α) (i : Nat) (d : α)
    (h : i < l.length) : l.get? i = some (l.getD i d) := by
  rw [List.get?_eq_getElem?, List.getD_eq_getElem?_getD,
    List.getElem?_eq_getElem h]
  rfl

lemma fmtIdx_eq (qr : QueryResult) (i : Nat)
    (hd : qr.documents.length = qr.ids.length)
    (hm : qr.metadatas.length = qr.ids.length)
    (hds : ∀ ds, qr.distances = some ds → ds.length = qr.ids.length)
    (hi : i < qr.ids.length) :
    fmtIdx qr i = some (hitAt qr i) := by
  unfold fmtIdx hitAt
  rw [get?_eq_getD qr.ids i "" hi, get?_eq_getD qr.documents i "" (by omega),
    get?_eq_getD qr.metadatas i [] (by omega)]
  cases hqd : qr.distances with
  | none => simp [distOf, hitDist, hqd]
  | some ds =>
    have hlen : i < ds.length := by rw [hds ds hqd]; exact hi
    simp [distOf, hitDist, hqd, List.getElem?_eq_getElem hlen,
      List.getD_eq_getElem?_getD]

lemma map_getD_range {α : Type} (l : List α) (d : α) :
    (List.range l.length).map (fun i => l.getD i d) = l := by
  apply List.ext_getElem?
  intro i
  rw [List.getElem?_map]
  by_cases hi : i < l.length
  · rw [List.getElem?_range hi, List.getElem?_eq_getElem hi]
    simp [List.getD_eq_getElem?_getD, List.getElem?_eq_getElem hi]
  · rw [List.getElem?_eq_none (by simp [List.length_range]; omega),
      List.getElem?_eq_none (by omega)]
    rfl

lemma formatResults_eq (qr : QueryResult)
    (hd : qr.documents.length = qr.ids.length)
    (hm : qr.metadatas.length = qr.ids.length)
    (hds : ∀ ds, qr.distances = some ds → ds.length = qr.ids.length) :
    formatResults qr = some ((List.range qr.ids.length).map (hitAt qr)) := by
  unfold formatResults
  rw [List.map_congr_left
    (fun i hi => fmtIdx_eq qr i hd hm hds (List.mem_range.1 hi))]
  exact seqOpt_map_some _ _

lemma formatResults_fields (qr : QueryResult)
    (hd : qr.documents.length = qr.ids.length)
    (hm : qr.metadatas.length = qr.ids.length)
    (hds : ∀ ds, qr.distances = some ds → ds.length = qr.ids.length) :
    ∃ hits, formatResults qr = some hits ∧
      hits.map SearchHit.id = qr.ids ∧
      hits.map SearchHit.document = qr.documents ∧
      hits.map SearchHit.metadata = qr.metadatas ∧
      (qr.distances = none → ∀ h ∈ hits, h.distance = none) ∧
      (∀ ds, qr.distances = some ds →
        hits.map SearchHit.distance = ds.map some) := by
  refine ⟨(List.range qr.ids.length).map (hitAt qr),
    formatResults_eq qr hd hm hds, ?_, ?_, ?_, ?_, ?_⟩
  · rw [List.map_map]
    exact map_getD_range qr.ids ""
  · rw [List.map_map, ← hd]
    exact map_getD_range qr.documents ""
  · rw [List.map_map, ← hm]
    exact map_getD_range qr.metadatas []
  · intro hqd h hh
    rcases List.mem_map.1 hh with ⟨i, _, hhi⟩
    rw [← hhi]
    simp [hitAt, hitDist, hqd]
  · intro ds hqd
    rw [List.map_map]
    have h1 : (SearchHit.distance ∘ hitAt qr) =
        fun i => some (ds.getD i 0) := by
      funext i
      simp [hitAt, hitDist, hqd]
    rw [h1, ← hds ds hqd]
    have h2 := congrArg (List.map some) (map_getD_range ds 0)
    rw [List.map_map] at h2
    exact h2

end ChromaStore

namespace ChromaStore

/-! Helper lemmas about the engine primitives on the collection state. -/

lemma engGet_engUpdate (st : Store) (id txt : String) (md : Meta) :
    engGet (engUpdate st id txt md) id
      = (engGet st id).map (fun _ => ⟨id, txt, md⟩) := by
  induction st with
  | nil => rfl
  | cons e st ih =>
    unfold engGet engUpdate at ih ⊢
    by_cases he : e.id = id
    · simp only [List.map_cons, List.filter_cons, he, if_pos, if_true, List.map]
      simp [he, ih]
    · simp only [List.map_cons, List.filter_cons, he, if_neg, if_false]
      simp [he, ih]

lemma engGet_mem_ne_nil {st : Store} {id : String} {e : Entry}
    (he : e ∈ st) (hid : e.id = id) : engGet st id ≠ [] := by
  have hmem : e ∈ engGet st id := by
    unfold engGet
    rw [List.mem_filter]
    exact ⟨he, by simp [hid]⟩
  intro hnil
  rw [hnil] at hmem
  exact List.not_mem_nil e hmem

lemma engGet_engDelete_self (st : Store) (id : String) :
    engGet (engDelete st [id]) id = [] := by
  unfold engGet engDelete
  rw [List.filter_eq_nil_iff]
  intro e he
  have h2 := (List.mem_filter.1 he).2
  simp only [List.contains_cons, List.contains_nil, Bool.or_false,
    decide_eq_true_eq] at h2 ⊢
  intro hc
  apply h2
  simp [hc]

end ChromaStore

namespace ChromaStore

/-! Sanity checks that the id rendering matches Python f-string output. -/

example : natStr 0 = "0" := rfl
example : natStr 11 = "11" := rfl
example : mkId 3 "1700.5" = "doc_3_1700.5" := rfl

/-- C1 counterexample: at a concrete add_documents call whose supplied
metadatas length (2) differs from the documents length (1), no wrapper-level
ValidationError is raised and collection.add is invoked (one engine call
happens before the failure), refuting the claim that the call fails with
ValidationError before any write reaches the engine. -/
theorem add_documents_mismatch_counterexample :
    (add_documents [] none ["a"] (some [[("k", "v")], [("k", "v")]]) none
      (fun _ => "0") (fun _ => "0")).engineCalls = 1 ∧
    (add_documents [] none ["a"] (some [[("k", "v")], [("k", "v")]]) none
      (fun _ => "0") (fun _ => "0")).result ≠ .error .validationError := by
  constructor
  · rfl
  · have hres : (add_documents [] none ["a"]
        (some [[("k", "v")], [("k", "v")]]) none (fun _ => "0")
        (fun _ => "0")).result = .error .engineLengthMismatch := rfl
    rw [hres]
    simp

/-- C1 amended: when the resolved documents, metadatas and ids sequences of an
add_documents call do not all have the same length, the wrapper performs no
validation of its own; collection.add is invoked exactly once with the
mismatched sequences, the engine rejects the batch with its own
length-mismatch error, which is logged and re-raised, and the collection is
left unchanged. -/
theorem add_documents_mismatch_engine_error (st : Store)
    (documents : List String) (metadatas : Option (List Meta))
    (ids : Option (List String)) (tss isoTs : Nat → String)
    (hmis : (ids.getD (genIds documents.length tss)).length ≠ documents.length
      ∨ (metadatas.getD (defaultMetas documents.length isoTs)).length
          ≠ documents.length) :
    (add_documents st none documents metadatas ids tss isoTs).result
        = .error .engineLengthMismatch ∧
    (add_documents st none documents metadatas ids tss isoTs).engineCalls = 1 ∧
    (add_documents st none documents metadatas ids tss isoTs).store = st := by
  cases ids with
  | none =>
    cases metadatas with
    | none =>
      simp only [Option.getD] at hmis
      simp [add_documents, engAdd, if_pos hmis]
    | some ms =>
      simp only [Option.getD] at hmis
      simp [add_documents, engAdd, if_pos hmis]
  | some l =>
    cases metadatas with
    | none =>
      simp only [Option.getD] at hmis
      simp [add_documents, engAdd, if_pos hmis]
    | some ms =>
      simp only [Option.getD] at hmis
      simp [add_documents, engAdd, if_pos hmis]

/-- C1 amended witness: a concrete mismatched call fails with the engine's
length-mismatch error after exactly one engine call. -/
theorem add_documents_mismatch_engine_error_witness :
    (add_documents [] none ["a"] (some [[("k", "v")], [("k", "v")]])
      (some ["i1"]) (fun _ => "0") (fun _ => "0")).result
        = .error .engineLengthMismatch ∧
    (add_documents [] none ["a"] (some [[("k", "v")], [("k", "v")]])
      (some ["i1"]) (fun _ => "0") (fun _ => "0")).engineCalls = 1 ∧
    (add_documents [] none ["a"] (some [[("k", "v")], [("k", "v")]])
      (some ["i1"]) (fun _ => "0") (fun _ => "0")).store = [] :=
  add_documents_mismatch_engine_error [] ["a"] (some [[("k", "v")], [("k", "v")]])
    (some ["i1"]) (fun _ => "0") (fun _ => "0") (by decide)

/-- C3: for every non-empty documents sequence passed to add_documents with
ids omitted, the call returns one id per input document, the ids are pairwise
distinct within the call, and the id at position i is the one generated for
the document at position i. -/
theorem add_documents_auto_ids_distinct (st : Store) (documents : List String)
    (tss isoTs : Nat → String) (_hne : documents ≠ []) :
    ∃ ids,
      (add_documents st none documents none none tss isoTs).result = .ok ids ∧
      ids.length = documents.length ∧
      ids.Nodup ∧
      ∀ i, i < documents.length → ids[i]? = some (mkId i (tss i)) := by
  refine ⟨genIds documents.length tss, ?_, genIds_length _ _,
    genIds_nodup _ _, ?_⟩
  · have hnodup := genIds_nodup documents.length tss
    simp [add_documents, engAdd, genIds_length, defaultMetas, hnodup]
  · intro i hi
    simp [genIds, List.getElem?_map, List.getElem?_range hi]

/-- C3 witness: a concrete two-document call with omitted ids. -/
theorem add_documents_auto_ids_distinct_witness :
    ∃ ids,
      (add_documents [] none ["alpha", "beta"] none none (fun _ => "7")
        (fun _ => "t")).result = .ok ids ∧
      ids.length = 2 ∧
      ids.Nodup ∧
      ∀ i, i < 2 → ids[i]? = some (mkId i "7") :=
  add_documents_auto_ids_distinct [] ["alpha", "beta"] (fun _ => "7")
    (fun _ => "t") (by decide)

end ChromaStore

namespace ChromaStore

/-- C2: for every engine query response of the contractual shape (parallel
lists matching the id list in length, distances too when supplied),
similarity_search returns normally and every returned entry carries the four
fields id, document (the engine's original text), metadata and distance, with
distance None whenever the engine response supplies no distances; in
particular the formatting step never fails on a response without distances. -/
theorem similarity_search_entry_shape (st : Store) (q : String) (k : Nat)
    (qr : QueryResult)
    (hd : qr.documents.length = qr.ids.length)
    (hm : qr.metadatas.length = qr.ids.length)
    (hds : ∀ ds, qr.distances = some ds → ds.length = qr.ids.length) :
    ∃ hits, (similarity_search st none q k qr).result = .ok hits ∧
      hits.map SearchHit.id = qr.ids ∧
      hits.map SearchHit.document = qr.documents ∧
      hits.map SearchHit.metadata = qr.metadatas ∧
      (qr.distances = none → ∀ h ∈ hits, h.distance = none) ∧
      (∀ ds, qr.distances = some ds →
        hits.map SearchHit.distance = ds.map some) := by
  obtain ⟨hits, hfmt, h1, h2, h3, h4, h5⟩ := formatResults_fields qr hd hm hds
  exact ⟨hits, by simp [similarity_search, hfmt], h1, h2, h3, h4, h5⟩

/-- C2 witness: a concrete engine response without distances formats into
entries whose distance field is None, without an error. -/
theorem similarity_search_entry_shape_witness :
    ∃ hits,
      (similarity_search [] none "q" 5
        ⟨["a"], ["text a"], [[("k", "v")]], none⟩).result = .ok hits ∧
      hits.map SearchHit.id = ["a"] ∧
      hits.map SearchHit.document = ["text a"] ∧
      hits.map SearchHit.metadata = [[("k", "v")]] ∧
      ((none : Option (List ℚ)) = none → ∀ h ∈ hits, h.distance = none) ∧
      (∀ ds, (none : Option (List ℚ)) = some ds →
        hits.map SearchHit.distance = ds.map some) :=
  similarity_search_entry_shape [] "q" 5 ⟨["a"], ["text a"], [[("k", "v")]], none⟩
    rfl rfl (fun _ h => Option.noConfusion h)

/-- C4: when the engine's query response carries distances that are already in
non-decreasing order (as the engine contract promises for a similarity
query), similarity_search returns the entries in exactly the engine's order,
with exactly those distances, so the returned list is sorted by
non-decreasing distance and ties stay in the engine's native order. -/
theorem similarity_search_sorted (st : Store) (q : String) (k : Nat)
    (qr : QueryResult)
    (hd : qr.documents.length = qr.ids.length)
    (hm : qr.metadatas.length = qr.ids.length)
    (ds : List ℚ) (hqd : qr.distances = some ds)
    (hlen : ds.length = qr.ids.length)
    (hsort : ds.Chain' (· ≤ ·)) :
    ∃ hits, (similarity_search st none q k qr).result = .ok hits ∧
      hits.map SearchHit.id = qr.ids ∧
      hits.map SearchHit.distance = ds.map some ∧
      hits.Chain' (fun a b => ∀ x ∈ a.distance, ∀ y ∈ b.distance, x ≤ y) := by
  have hds : ∀ ds2, qr.distances = some ds2 → ds2.length = qr.ids.length := by
    intro ds2 h2
    rw [hqd] at h2
    cases h2
    exact hlen
  obtain ⟨hits, hfmt, hid, _, _, _, hdist⟩ := formatResults_fields qr hd hm hds
  have hmap := hdist ds hqd
  refine ⟨hits, by simp [similarity_search, hfmt], hid, hmap, ?_⟩
  have h1 : List.Chain' (fun a b : Option ℚ => ∀ x ∈ a, ∀ y ∈ b, x ≤ y)
      (ds.map some) := by
    rw [List.chain'_map]
    refine hsort.imp ?_
    intro a b hab x hx y hy
    simp only [Option.mem_def, Option.some.injEq] at hx hy
    rw [← hx, ← hy]
    exact hab
  rw [← hmap] at h1
  exact (List.chain'_map SearchHit.distance).1 h1

/-- C4 witness: a concrete engine response with sorted distances yields a
result list in the same order with non-decreasing distances. -/
theorem similarity_search_sorted_witness :
    ∃ hits,
      (similarity_search [] none "q" 2
        ⟨["a", "b"], ["ta", "tb"], [[], []], some [1, 2]⟩).result = .ok hits ∧
      hits.map SearchHit.id = ["a", "b"] ∧
      hits.map SearchHit.distance = ([1, 2] : List ℚ).map some ∧
      hits.Chain' (fun a b => ∀ x ∈ a.distance, ∀ y ∈ b.distance, x ≤ y) :=
  similarity_search_sorted [] "q" 2 ⟨["a", "b"], ["ta", "tb"], [[], []], some [1, 2]⟩
    rfl rfl [1, 2] rfl rfl (by norm_num [List.chain'_cons])

/-- C7: a query against an empty collection, where the engine returns no
matching ids, makes similarity_search return the empty list and not an
error. -/
theorem similarity_search_empty (st : Store) (q : String) (k : Nat)
    (qr : QueryResult) (hids : qr.ids = []) :
    (similarity_search st none q k qr).result = .ok [] := by
  simp [similarity_search, formatResults, hids, seqOpt]

/-- C7 witness: the fully empty engine response yields the empty result. -/
theorem similarity_search_empty_witness :
    (similarity_search [] none "anything" 5 ⟨[], [], [], none⟩).result
      = .ok [] :=
  similarity_search_empty [] "anything" 5 ⟨[], [], [], none⟩ rfl

end ChromaStore

namespace ChromaStore

/-- C5: updating a stored document with metadata omitted fully replaces its
metadata by the single-key update-timestamp mapping, so a subsequent
get_document returns the new text together with exactly that mapping. -/
theorem update_document_default_metadata (st : Store)
    (doc_id document ts : String)
    (hpresent : ∃ e ∈ st, e.id = doc_id) :
    (update_document st none doc_id document none ts).result = .ok () ∧
    (get_document (update_document st none doc_id document none ts).store
        none doc_id).result
      = .ok (some ⟨doc_id, document, [("updated_at", ts)]⟩) := by
  refine ⟨rfl, ?_⟩
  obtain ⟨e, he, hid⟩ := hpresent
  have hstore : (update_document st none doc_id document none ts).store
      = engUpdate st doc_id document [("updated_at", ts)] := rfl
  rw [hstore]
  have hne := engGet_mem_ne_nil he hid
  unfold get_document
  rw [engGet_engUpdate]
  cases hg : engGet st doc_id with
  | nil => exact absurd hg hne
  | cons a rest => rfl

/-- C5 witness: a concrete update with omitted metadata followed by a get. -/
theorem update_document_default_metadata_witness :
    (update_document [⟨"a", "old", [("k", "v")]⟩] none "a" "new" none
      "T").result = .ok () ∧
    (get_document (update_document [⟨"a", "old", [("k", "v")]⟩] none "a" "new"
        none "T").store none "a").result
      = .ok (some ⟨"a", "new", [("updated_at", "T")]⟩) :=
  update_document_default_metadata [⟨"a", "old", [("k", "v")]⟩] "a" "new" "T"
    ⟨⟨"a", "old", [("k", "v")]⟩, by simp, rfl⟩

/-- C6: get_document returns None, without raising, for an id no stored entry
carries, and returns the full stored record (id, text, metadata) for an id
that is present; only an injected engine failure can make it raise. -/
theorem get_document_absent_none_present_found (st : Store) (doc_id : String) :
    ((∀ e ∈ st, e.id ≠ doc_id) →
      (get_document st none doc_id).result = .ok none) ∧
    ((∃ e ∈ st, e.id = doc_id) →
      ∃ r, (get_document st none doc_id).result = .ok (some r) ∧
        r.id = doc_id ∧ r ∈ st) := by
  constructor
  · intro habs
    have hfil : engGet st doc_id = [] := by
      unfold engGet
      rw [List.filter_eq_nil_iff]
      intro e he
      simp [habs e he]
    simp [get_document, hfil]
  · rintro ⟨e, he, hid⟩
    have hne := engGet_mem_ne_nil he hid
    cases hg : engGet st doc_id with
    | nil => exact absurd hg hne
    | cons r rest =>
      have hr : r ∈ engGet st doc_id := by
        rw [hg]
        exact List.mem_cons_self r rest
      have hr2 := List.mem_filter.1 hr
      refine ⟨r, ?_, ?_, hr2.1⟩
      · simp [get_document, hg]
      · simpa using hr2.2

/-- C6 witness: one absent id yields None, one present id yields the record. -/
theorem get_document_absent_none_present_found_witness :
    (get_document [⟨"a", "t", []⟩] none "b").result = .ok none ∧
    ∃ r, (get_document [⟨"a", "t", []⟩] none "a").result = .ok (some r) ∧
      r.id = "a" ∧ r ∈ [(⟨"a", "t", []⟩ : Entry)] :=
  ⟨(get_document_absent_none_present_found [⟨"a", "t", []⟩] "b").1
      (by simp),
   (get_document_absent_none_present_found [⟨"a", "t", []⟩] "a").2
      ⟨⟨"a", "t", []⟩, by simp, rfl⟩⟩

/-- C9: for an id present in the collection, a successful
delete_documents([id]) followed by get_document(id) returns None. -/
theorem delete_then_get_absent (st : Store) (doc_id : String)
    (_hpresent : ∃ e ∈ st, e.id = doc_id) :
    (delete_documents st none [doc_id]).result = .ok () ∧
    (get_document (delete_documents st none [doc_id]).store none
      doc_id).result = .ok none := by
  refine ⟨rfl, ?_⟩
  have hstore : (delete_documents st none [doc_id]).store
      = engDelete st [doc_id] := rfl
  rw [hstore]
  simp [get_document, engGet_engDelete_self]

/-- C9 witness: deleting a present id then getting it yields None. -/
theorem delete_then_get_absent_witness :
    (delete_documents [⟨"a", "t", []⟩] none ["a"]).result = .ok () ∧
    (get_document (delete_documents [⟨"a", "t", []⟩] none ["a"]).store none
      "a").result = .ok none :=
  delete_then_get_absent [⟨"a", "t", []⟩] "a" ⟨⟨"a", "t", []⟩, by simp, rfl⟩

/-- C8: for every operation, an engine-level failure e makes the operation
re-raise exactly e to the caller (never a normal return, never a different
error), after exactly one engine call (no retry), leaving the collection
unchanged. -/
theorem engine_failure_propagation (st : Store) (e : Err)
    (documents : List String) (metadatas : Option (List Meta))
    (ids : Option (List String)) (tss isoTs : Nat → String) (q : String)
    (k : Nat) (qr : QueryResult) (dids : List String)
    (doc_id document : String) (md : Option Meta) (ts : String) :
    ((add_documents st (some e) documents metadatas ids tss isoTs).result
        = .error e
      ∧ (add_documents st (some e) documents metadatas ids tss
          isoTs).engineCalls = 1
      ∧ (add_documents st (some e) documents metadatas ids tss isoTs).store
        = st) ∧
    ((similarity_search st (some e) q k qr).result = .error e
      ∧ (similarity_search st (some e) q k qr).engineCalls = 1
      ∧ (similarity_search st (some e) q k qr).store = st) ∧
    ((delete_documents st (some e) dids).result = .error e
      ∧ (delete_documents st (some e) dids).engineCalls = 1
      ∧ (delete_documents st (some e) dids).store = st) ∧
    ((get_document st (some e) doc_id).result = .error e
      ∧ (get_document st (some e) doc_id).engineCalls = 1
      ∧ (get_document st (some e) doc_id).store = st) ∧
    ((update_document st (some e) doc_id document md ts).result = .error e
      ∧ (update_document st (some e) doc_id document md ts).engineCalls = 1
      ∧ (update_document st (some e) doc_id document md ts).store = st) :=
  ⟨⟨rfl, rfl, rfl⟩, ⟨rfl, rfl, rfl⟩, ⟨rfl, rfl, rfl⟩, ⟨rfl, rfl, rfl⟩,
    ⟨rfl, rfl, rfl⟩⟩

end ChromaStore

namespace PathSetup

/-- C10: add_project_root_to_path is idempotent, and it inserts the root only
when absent, so one occurrence results from a fresh insert and a repeated
call changes nothing. -/
theorem add_project_root_idempotent (root : String) (path : List String) :
    add_project_root_to_path root (add_project_root_to_path root path)
        = add_project_root_to_path root path ∧
    (add_project_root_to_path root path).count root
        = max (path.count root) 1 ∧
    (root ∈ path → add_project_root_to_path root path = path) ∧
    (root ∉ path → add_project_root_to_path root path = root :: path) := by
  refine ⟨?_, ?_, ?_, ?_⟩
  · by_cases h : root ∈ path <;> simp [add_project_root_to_path, h]
  · by_cases h : root ∈ path
    · have hc := List.count_pos_iff.2 h
      simp only [add_project_root_to_path, if_pos h]
      omega
    · have hc : path.count root = 0 := List.count_eq_zero.2 h
      simp only [add_project_root_to_path, if_neg h, List.count_cons_self]
      omega
  · intro h
    simp [add_project_root_to_path, h]
  · intro h
    simp [add_project_root_to_path, h]

/-- C10 witness: a present root is not re-inserted; an absent root is
inserted at the front. -/
theorem add_project_root_idempotent_witness :
    add_project_root_to_path "/r" ["/r"] = ["/r"] ∧
    add_project_root_to_path "/r" ["/x"] = "/r" :: ["/x"] :=
  ⟨(add_project_root_idempotent "/r" ["/r"]).2.2.1 (by simp),
   (add_project_root_idempotent "/r" ["/x"]).2.2.2 (by simp)⟩

end PathSetup
